import Mathlib

/-!
Shallow embedding of the `VectorIngestPipeline` component of the orthant
repository (src/packages/orthant-embedding/src/orthant/embedding/
vector_ingest_pipeline.py) together with the data contracts it moves
around (orthant-documents document_contracts.py and orthant-embedding
document_contracts.py).

The embedding has three layers, each translated from the same source at a
different granularity:

1. An API-level functional model of the pipeline object
   (`VectorIngestPipeline`, `start_async`, `stop_async`,
   `ingest_batch_async`).  Queues are modelled as lists with a recorded
   capacity; an awaited `put` is modelled by its effect after it completes
   (an append), since suspension itself is not observable in a functional
   model.  Python exceptions raised by these entry points are modelled as
   an `Option PipelineError` component of the result, and mutations
   performed before a raise are kept (as in Python, a raise does not roll
   back earlier queue puts).

2. A per-iteration model of the three worker loops
   (`chunker_iteration`, `embedding_iteration`, `storage_iteration`): one
   loop body after a successful dequeue, as a function of the outcome of
   the awaited processing calls.  `asyncio.CancelledError` is not caught
   by the source's `except Exception` handler, so it is a distinguished
   constructor of `PyExc`; the `finally: queue.task_done()` is modelled by
   the `task_done` count of the iteration result.

3. A small-step interleaving semantics (`PipeStep`) of the whole staged
   pipeline running with `c` chunker workers, `e` embedding workers and
   the single storage worker, used for the end-to-end throughput claim.
   Each worker processes at most one item at a time, so a stage with pool
   size `n` has at most `n` items in flight; a scheduler is an arbitrary
   finite sequence of enabled steps.

Vectors returned by the embedding collaborator are opaque payloads to the
pipeline (it never inspects or computes with them), so the `float`
sequence is modelled by `List Rat`.
-/

/-- Embedding vectors are opaque to the pipeline; the float payload is
modelled by rationals. -/
abbrev EmbeddingVector := List Rat

/-- orthant-documents document_contracts.py: `OrthantDocumentNode`. -/
structure OrthantDocumentNode where
  node_path : String
  content : String
deriving DecidableEq

/-- orthant-documents document_contracts.py: `OrthantDocument`. -/
structure OrthantDocument where
  document_id : String
  source_uri : String
  nodes : List OrthantDocumentNode
deriving DecidableEq

/-- orthant-documents document_contracts.py: `OrthantDocumentNodeChunk`. -/
structure OrthantDocumentNodeChunk where
  document_id : String
  node_path : String
  node_chunk_index : Nat
  content : String
deriving DecidableEq

/-- orthant-embedding document_contracts.py: `VectorDocumentNodeChunk`
(an `OrthantDocumentNodeChunk` plus a `vector` field). -/
structure VectorDocumentNodeChunk where
  document_id : String
  node_path : String
  node_chunk_index : Nat
  content : String
  vector : EmbeddingVector
deriving DecidableEq

/-- The three usage errors of the pipeline (spec section 7).  In the source
they are `RuntimeError`/`ValueError` raises; `invalidInput` carries the
message built by `ingest_batch_async`. -/
inductive PipelineError where
  | alreadyStarted
  | notStarted
  | invalidInput (message : String)
deriving DecidableEq

/-- The kind of a tracked worker task, in place of the opaque
`asyncio.Task` handle appended by `start_async`. -/
inductive WorkerKind where
  | chunker
  | embedding
  | storage
deriving DecidableEq

/-- An `asyncio.Queue(maxsize)`: its capacity and its current items.  An
awaited `put` is modelled by its effect once accepted (append); the
suspension while the queue is at capacity is not observable here. -/
structure AsyncQueue (α : Type) where
  maxsize : Nat
  items : List α
deriving DecidableEq

/-- `queue.put(x)` once the item has been accepted. -/
def AsyncQueue.put {α : Type} (q : AsyncQueue α) (x : α) : AsyncQueue α :=
  { q with items := q.items ++ [x] }

/-- An element of the Python list passed to `ingest_batch_async`: either an
actual `OrthantDocument`, or some other Python value, carried with
`str(type(value))` and `repr(value)` so that the isinstance check and the
error message can be modelled. -/
inductive IngestItem where
  | doc (d : OrthantDocument)
  | invalid (type_str : String) (repr_str : String)
deriving DecidableEq

/-- State of a `VectorIngestPipeline` object: the three queues, the stop
event and the tracked worker-task list, plus the two worker-pool sizes.
The collaborator objects (`_chunking_strategy`, `_embedding_client`,
`_document_storage`, `_pool`) are not fields here: the API entry points
never invoke them, and the worker-level models below take them as
function parameters. -/
structure VectorIngestPipeline where
  q_chunker : AsyncQueue OrthantDocument
  q_embeddings : AsyncQueue OrthantDocumentNodeChunk
  q_storage : AsyncQueue VectorDocumentNodeChunk
  stop_event : Bool
  worker_tasks : List WorkerKind
  chunker_workers : Nat
  embedding_workers : Nat
deriving DecidableEq

/-- `VectorIngestPipeline.__init__` with capacities `q_chunking`,
`q_embeddings`, `q_storage` (source defaults 1024/4096/4096) and pool
sizes `chunker_workers`, `embedding_workers` (source defaults 4/4):
empty queues, unset stop event, no tracked worker tasks. -/
def VectorIngestPipeline.init
    (q_chunking q_embeddings q_storage chunker_workers embedding_workers : Nat) :
    VectorIngestPipeline :=
  { q_chunker := { maxsize := q_chunking, items := [] }
    q_embeddings := { maxsize := q_embeddings, items := [] }
    q_storage := { maxsize := q_storage, items := [] }
    stop_event := false
    worker_tasks := []
    chunker_workers := chunker_workers
    embedding_workers := embedding_workers }

/-- `start_async`: raises `RuntimeError("Worker tasks already started.")`
when `self._worker_tasks` is non-empty; otherwise appends
`chunker_workers` chunker tasks, `embedding_workers` embedding tasks and
one storage task, and returns without processing anything. -/
def start_async (p : VectorIngestPipeline) :
    VectorIngestPipeline × Option PipelineError :=
  if p.worker_tasks.isEmpty then
    ({ p with worker_tasks :=
        List.replicate p.chunker_workers WorkerKind.chunker
          ++ List.replicate p.embedding_workers WorkerKind.embedding
          ++ [WorkerKind.storage] }, none)
  else
    (p, some PipelineError.alreadyStarted)

/-- `stop_async`: sets the stop event, cancels and awaits every tracked
task (`gather(..., return_exceptions=True)` collects their outcomes and
raises nothing), and clears the tracked list.  Nothing in the source ever
clears `_stop_event`. -/
def stop_async (p : VectorIngestPipeline) :
    VectorIngestPipeline × Option PipelineError :=
  ({ p with stop_event := true, worker_tasks := [] }, none)

/-- The message of the `ValueError` raised by `ingest_batch_async` for a
non-document value: in the source, the f-string
"Expected OrthantDocument, got \x7btype(doc)\x7d"; `type_str` stands for
the rendering of `type(doc)`. -/
def invalid_input_message (type_str : String) : String :=
  "Expected OrthantDocument, got " ++ type_str

/-- The per-document loop of `ingest_batch_async`: validate each value in
order and `put` it onto the chunking queue; on the first non-document
value raise `ValueError` (documents already enqueued stay enqueued). -/
def enqueue_documents (q : AsyncQueue OrthantDocument) :
    List IngestItem → AsyncQueue OrthantDocument × Option PipelineError
  | [] => (q, none)
  | IngestItem.doc d :: rest => enqueue_documents (q.put d) rest
  | IngestItem.invalid t _r :: _rest =>
      (q, some (PipelineError.invalidInput (invalid_input_message t)))

/-- `ingest_batch_async`: raises `RuntimeError` (NotStarted) when no
worker tasks are tracked, otherwise runs the validate-and-enqueue loop.
The body touches only the chunking queue and invokes no collaborator. -/
def ingest_batch_async (p : VectorIngestPipeline) (documents : List IngestItem) :
    VectorIngestPipeline × Option PipelineError :=
  if p.worker_tasks.isEmpty then
    (p, some PipelineError.notStarted)
  else
    let r := enqueue_documents p.q_chunker documents
    ({ p with q_chunker := r.1 }, r.2)

/-- Occurrences of a worker kind in the tracked task list. -/
def count_tasks (k : WorkerKind) : List WorkerKind → Nat
  | [] => 0
  | t :: rest => (if t = k then 1 else 0) + count_tasks k rest

/-- A Python exception as seen by a worker loop: `asyncio.CancelledError`
(not caught by `except Exception`) or an ordinary exception with its
message. -/
inductive PyExc where
  | cancelled
  | error (message : String)
deriving DecidableEq

/-- Result of one worker-loop iteration after a successful dequeue:
`output` is what the iteration emitted downstream (queue puts for the
chunking and embedding workers, the recorded store for the storage
worker), `task_done` counts the `finally: queue.task_done()` calls, and
`escaped` is the exception, if any, that left the loop body. -/
structure WorkerIterResult (α : Type) where
  output : List α
  task_done : Nat
  escaped : Option PyExc
deriving DecidableEq

/-- One iteration of `_chunker_worker` after dequeuing a document, as a
function of the outcome of the chunking call: on success every produced
chunk is put on the embeddings queue; `except Exception: pass` swallows an
ordinary exception; `CancelledError` escapes; `finally` always calls
`task_done()` once. -/
def chunker_iteration (res : Except PyExc (List OrthantDocumentNodeChunk)) :
    WorkerIterResult OrthantDocumentNodeChunk :=
  match res with
  | Except.ok chunks => { output := chunks, task_done := 1, escaped := none }
  | Except.error PyExc.cancelled =>
      { output := [], task_done := 1, escaped := some PyExc.cancelled }
  | Except.error (PyExc.error _m) =>
      { output := [], task_done := 1, escaped := none }

/-- The `VectorDocumentNodeChunk(...)` construction in
`_embedding_worker`: the dequeued chunk's fields plus the vector returned
by `encode_document_async`. -/
def build_vector_chunk (next_doc : OrthantDocumentNodeChunk)
    (document_embedding : EmbeddingVector) : VectorDocumentNodeChunk :=
  { document_id := next_doc.document_id
    node_path := next_doc.node_path
    node_chunk_index := next_doc.node_chunk_index
    content := next_doc.content
    vector := document_embedding }

/-- One iteration of `_embedding_worker` after dequeuing chunk `next_doc`,
as a function of the outcome of the embedding call. -/
def embedding_iteration (next_doc : OrthantDocumentNodeChunk)
    (res : Except PyExc EmbeddingVector) :
    WorkerIterResult VectorDocumentNodeChunk :=
  match res with
  | Except.ok document_embedding =>
      { output := [build_vector_chunk next_doc document_embedding]
        task_done := 1, escaped := none }
  | Except.error PyExc.cancelled =>
      { output := [], task_done := 1, escaped := some PyExc.cancelled }
  | Except.error (PyExc.error _m) =>
      { output := [], task_done := 1, escaped := none }

/-- One iteration of `_storage_worker` after dequeuing `next_doc`, as a
function of the outcome of the storage call; `output` records the item
handed to the storage collaborator on success. -/
def storage_iteration (next_doc : VectorDocumentNodeChunk)
    (res : Except PyExc Unit) : WorkerIterResult VectorDocumentNodeChunk :=
  match res with
  | Except.ok _ => { output := [next_doc], task_done := 1, escaped := none }
  | Except.error PyExc.cancelled =>
      { output := [], task_done := 1, escaped := some PyExc.cancelled }
  | Except.error (PyExc.error _m) =>
      { output := [], task_done := 1, escaped := none }

/-- A worker loop over a sequence of dequeued-item outcomes: each
iteration runs; an escaping exception (cancellation) ends the loop, an
iteration whose exception was swallowed is followed by the next one. -/
def worker_run {ρ α : Type} (iter : ρ → WorkerIterResult α) :
    List ρ → List α × Nat
  | [] => ([], 0)
  | r :: rs =>
    let o := iter r
    match o.escaped with
    | some _ => (o.output, o.task_done)
    | none =>
      let rest := worker_run iter rs
      (o.output ++ rest.1, o.task_done + rest.2)

/-- The shared `while not self._stop_event.is_set():` loop skeleton of all
three workers, with `fuel` bounding the number of iterations, returning
the remaining queue and the number of items dequeued and processed.  The
flag is re-read on every iteration; nothing in the source ever clears it,
so it is a constant here. -/
def worker_loop {α : Type} (stop_is_set : Bool) :
    Nat → List α → Nat → List α × Nat
  | 0, queue, processed => (queue, processed)
  | Nat.succ n, queue, processed =>
    if stop_is_set then (queue, processed)
    else
      match queue with
      | [] => worker_loop stop_is_set n [] processed
      | _ :: rest => worker_loop stop_is_set n rest (processed + 1)

/-- Substring test on strings, used to state that an error message
mentions a given piece of text. -/
def str_contains (hay needle : String) : Bool :=
  (List.range (hay.toList.length + 1)).any
    (fun i => needle.toList.isPrefixOf (hay.toList.drop i))

/-- Occurrences of a document id among queued documents. -/
def count_docs (id : String) : List OrthantDocument → Nat
  | [] => 0
  | d :: rest => (if d.document_id = id then 1 else 0) + count_docs id rest

/-- Occurrences of a document id among queued chunks. -/
def count_chunks (id : String) : List OrthantDocumentNodeChunk → Nat
  | [] => 0
  | ch :: rest => (if ch.document_id = id then 1 else 0) + count_chunks id rest

/-- Occurrences of a document id among queued vector chunks. -/
def count_vchunks (id : String) : List VectorDocumentNodeChunk → Nat
  | [] => 0
  | vc :: rest => (if vc.document_id = id then 1 else 0) + count_vchunks id rest

/-- Global state of the running staged pipeline: the three queues plus,
for each stage, the multiset of items currently being processed by a busy
worker of that stage (each worker holds at most one item, so a pool of
size `n` has at most `n` items in flight), and the list of items the
storage collaborator has recorded. -/
structure PipeState where
  q_chunker : List OrthantDocument
  chunk_inflight : List OrthantDocument
  q_embeddings : List OrthantDocumentNodeChunk
  embed_inflight : List OrthantDocumentNodeChunk
  q_storage : List VectorDocumentNodeChunk
  store_inflight : List VectorDocumentNodeChunk
  stored : List VectorDocumentNodeChunk
deriving DecidableEq

/-- State after `start_async` and a successful `ingest_batch_async` of
`docs`, before any worker has run. -/
def init_state (docs : List OrthantDocument) : PipeState :=
  { q_chunker := docs, chunk_inflight := [], q_embeddings := []
    embed_inflight := [], q_storage := [], store_inflight := [], stored := [] }

/-- Interleaving small-step semantics of the pipeline running with `c`
chunker workers, `e` embedding workers, and the single storage worker,
with collaborators `chunk_document` (the chunking strategy, run in the
process pool) and `encode_document_async` (the embedding client), neither
of which raises.  Each stage splits into a begin step (a free worker of
the stage dequeues an item) and an end step (the awaited collaborator
call returns and the results are passed downstream), so that distinct
workers of one stage genuinely interleave. -/
inductive PipeStep (c e : Nat)
    (chunk_document : OrthantDocument → List OrthantDocumentNodeChunk)
    (encode_document_async : OrthantDocumentNodeChunk → EmbeddingVector) :
    PipeState → PipeState → Prop where
  | begin_chunk (s : PipeState) (d : OrthantDocument) (rest : List OrthantDocument)
      (hq : s.q_chunker = d :: rest) (hfree : s.chunk_inflight.length < c) :
      PipeStep c e chunk_document encode_document_async s
        { s with q_chunker := rest, chunk_inflight := s.chunk_inflight ++ [d] }
  | end_chunk (s : PipeState) (l1 l2 : List OrthantDocument) (d : OrthantDocument)
      (hbusy : s.chunk_inflight = l1 ++ d :: l2) :
      PipeStep c e chunk_document encode_document_async s
        { s with chunk_inflight := l1 ++ l2
                 q_embeddings := s.q_embeddings ++ chunk_document d }
  | begin_embed (s : PipeState) (ch : OrthantDocumentNodeChunk)
      (rest : List OrthantDocumentNodeChunk)
      (hq : s.q_embeddings = ch :: rest) (hfree : s.embed_inflight.length < e) :
      PipeStep c e chunk_document encode_document_async s
        { s with q_embeddings := rest, embed_inflight := s.embed_inflight ++ [ch] }
  | end_embed (s : PipeState) (l1 l2 : List OrthantDocumentNodeChunk)
      (ch : OrthantDocumentNodeChunk)
      (hbusy : s.embed_inflight = l1 ++ ch :: l2) :
      PipeStep c e chunk_document encode_document_async s
        { s with embed_inflight := l1 ++ l2
                 q_storage := s.q_storage
                   ++ [build_vector_chunk ch (encode_document_async ch)] }
  | begin_store (s : PipeState) (vc : VectorDocumentNodeChunk)
      (rest : List VectorDocumentNodeChunk)
      (hq : s.q_storage = vc :: rest) (hfree : s.store_inflight.length < 1) :
      PipeStep c e chunk_document encode_document_async s
        { s with q_storage := rest, store_inflight := s.store_inflight ++ [vc] }
  | end_store (s : PipeState) (l1 l2 : List VectorDocumentNodeChunk)
      (vc : VectorDocumentNodeChunk)
      (hbusy : s.store_inflight = l1 ++ vc :: l2) :
      PipeStep c e chunk_document encode_document_async s
        { s with store_inflight := l1 ++ l2, stored := s.stored ++ [vc] }

/-- No step is enabled: every worker is idle on empty queues. -/
def Stuck (c e : Nat)
    (chunk_document : OrthantDocument → List OrthantDocumentNodeChunk)
    (encode_document_async : OrthantDocumentNodeChunk → EmbeddingVector)
    (s : PipeState) : Prop :=
  ∀ s', ¬ PipeStep c e chunk_document encode_document_async s s'

/-- Occurrences of document id `id` anywhere in the pipeline, counting a
not-yet-chunked document as its future `expected` chunks. -/
def id_count (expected : Nat) (id : String) (s : PipeState) : Nat :=
  expected * (count_docs id s.q_chunker + count_docs id s.chunk_inflight)
    + count_chunks id s.q_embeddings + count_chunks id s.embed_inflight
    + count_vchunks id s.q_storage + count_vchunks id s.store_inflight
    + count_vchunks id s.stored

/-- Total number of items anywhere in the pipeline, counting a
not-yet-chunked document as `expected` future chunks. -/
def total_count (expected : Nat) (s : PipeState) : Nat :=
  expected * (s.q_chunker.length + s.chunk_inflight.length)
    + s.q_embeddings.length + s.embed_inflight.length
    + s.q_storage.length + s.store_inflight.length + s.stored.length

/-- Concrete document used to exercise the theorems. -/
def w_doc : OrthantDocument :=
  { document_id := "doc-1", source_uri := "file://a"
    nodes := [{ node_path := "p", content := "hello" }] }

/-- Deterministic test chunker producing exactly one chunk per document. -/
def w_chunker (d : OrthantDocument) : List OrthantDocumentNodeChunk :=
  [{ document_id := d.document_id, node_path := "p"
     node_chunk_index := 0, content := "hello" }]

/-- Deterministic test embedder. -/
def w_encoder (_ch : OrthantDocumentNodeChunk) : EmbeddingVector := [(1 : Rat)]

/-- The single chunk `w_chunker` produces from `w_doc`. -/
def w_chunk : OrthantDocumentNodeChunk :=
  { document_id := "doc-1", node_path := "p", node_chunk_index := 0, content := "hello" }

/-- The vector chunk the embedding stage builds from `w_chunk`. -/
def w_vchunk : VectorDocumentNodeChunk := build_vector_chunk w_chunk (w_encoder w_chunk)

/-- Drained state after the single document has flowed through. -/
def w_final : PipeState :=
  { q_chunker := [], chunk_inflight := [], q_embeddings := []
    embed_inflight := [], q_storage := [], store_inflight := []
    stored := [w_vchunk] }

/-- A pipeline freshly constructed with the source defaults and started. -/
def started_pipeline : VectorIngestPipeline :=
  (start_async (VectorIngestPipeline.init 1024 4096 4096 4 4)).1

theorem count_docs_append (id : String) (l1 l2 : List OrthantDocument) :
    count_docs id (l1 ++ l2) = count_docs id l1 + count_docs id l2 := by
  induction l1 with
  | nil => simp [count_docs]
  | cons d t ih => simp [count_docs, ih]; omega

theorem count_chunks_append (id : String) (l1 l2 : List OrthantDocumentNodeChunk) :
    count_chunks id (l1 ++ l2) = count_chunks id l1 + count_chunks id l2 := by
  induction l1 with
  | nil => simp [count_chunks]
  | cons ch t ih => simp [count_chunks, ih]; omega

theorem count_vchunks_append (id : String) (l1 l2 : List VectorDocumentNodeChunk) :
    count_vchunks id (l1 ++ l2) = count_vchunks id l1 + count_vchunks id l2 := by
  induction l1 with
  | nil => simp [count_vchunks]
  | cons vc t ih => simp [count_vchunks, ih]; omega

theorem count_chunks_of_same_id (did id : String) (l : List OrthantDocumentNodeChunk)
    (h : ∀ ch ∈ l, ch.document_id = did) :
    count_chunks id l = if did = id then l.length else 0 := by
  induction l with
  | nil => simp [count_chunks]
  | cons ch t ih =>
    have hch : ch.document_id = did := h ch (List.mem_cons_self ch t)
    have ht : ∀ x ∈ t, x.document_id = did := fun x hx => h x (List.mem_cons_of_mem ch hx)
    simp [count_chunks, hch, ih ht]
    by_cases hdid : did = id <;> simp [hdid] <;> omega

theorem count_tasks_append (k : WorkerKind) (l1 l2 : List WorkerKind) :
    count_tasks k (l1 ++ l2) = count_tasks k l1 + count_tasks k l2 := by
  induction l1 with
  | nil => simp [count_tasks]
  | cons t rest ih => simp [count_tasks, ih]; omega

theorem count_tasks_replicate (k q : WorkerKind) (n : Nat) :
    count_tasks k (List.replicate n q) = if q = k then n else 0 := by
  induction n with
  | zero => simp [count_tasks]
  | succ n ih =>
    rw [List.replicate_succ]
    by_cases h : q = k
    · subst h; simp [count_tasks, ih]; omega
    · simp [count_tasks, ih, h]

theorem enqueue_documents_docs (docs : List OrthantDocument)
    (q : AsyncQueue OrthantDocument) :
    enqueue_documents q (docs.map IngestItem.doc)
      = ({ maxsize := q.maxsize, items := q.items ++ docs }, none) := by
  induction docs generalizing q with
  | nil => simp [enqueue_documents]
  | cons d t ih => simp [enqueue_documents, AsyncQueue.put, ih]

theorem enqueue_documents_first_invalid (docs : List OrthantDocument)
    (q : AsyncQueue OrthantDocument) (t r : String) (rest : List IngestItem) :
    enqueue_documents q (docs.map IngestItem.doc ++ IngestItem.invalid t r :: rest)
      = ({ maxsize := q.maxsize, items := q.items ++ docs },
         some (PipelineError.invalidInput (invalid_input_message t))) := by
  induction docs generalizing q with
  | nil => simp [enqueue_documents]
  | cons d ds ih => simp [enqueue_documents, AsyncQueue.put, ih]

theorem worker_tasks_isEmpty_false (p : VectorIngestPipeline)
    (h : p.worker_tasks ≠ []) : p.worker_tasks.isEmpty = false := by
  cases hw : p.worker_tasks with
  | nil => exact absurd hw h
  | cons a l => rfl

/-- C8: stop is idempotent: it never raises, leaves the tracked
worker-task set empty, and a second stop in a row is a no-op that also
never raises and leaves the tracked set empty. -/
theorem stop_idempotent_clears_tasks (p : VectorIngestPipeline) :
    (stop_async p).2 = none
    ∧ (stop_async p).1.worker_tasks = []
    ∧ stop_async (stop_async p).1 = stop_async p :=
  ⟨rfl, rfl, rfl⟩

/-- C5: calling start while any worker task handle is tracked fails with
AlreadyStarted, spawns no new worker tasks, and leaves the pipeline (in
particular the tracked worker-task set) exactly as it was after the first
successful start. -/
theorem start_twice_fails_already_started (p : VectorIngestPipeline)
    (h : p.worker_tasks = []) :
    (start_async p).2 = none
    ∧ start_async (start_async p).1
        = ((start_async p).1, some PipelineError.alreadyStarted) := by
  constructor
  · simp [start_async, h]
  · simp only [start_async, h, List.isEmpty_nil, if_pos]
    have hne : (List.replicate p.chunker_workers WorkerKind.chunker
        ++ List.replicate p.embedding_workers WorkerKind.embedding
        ++ [WorkerKind.storage]).isEmpty = false := by
      simp [List.isEmpty_eq_true]
    simp [hne]

/-- Witness for C5 at a freshly constructed pipeline with the source
defaults. -/
theorem start_twice_fails_already_started_witness :
    (VectorIngestPipeline.init 1024 4096 4096 4 4).worker_tasks = []
    ∧ ((start_async (VectorIngestPipeline.init 1024 4096 4096 4 4)).2 = none
       ∧ start_async (start_async (VectorIngestPipeline.init 1024 4096 4096 4 4)).1
           = ((start_async (VectorIngestPipeline.init 1024 4096 4096 4 4)).1,
              some PipelineError.alreadyStarted)) :=
  ⟨rfl, start_twice_fails_already_started (VectorIngestPipeline.init 1024 4096 4096 4 4) rfl⟩

/-- C6: ingest_batch before the first start (freshly constructed
pipeline) or after stop (no worker tasks tracked in either case) fails
with NotStarted and enqueues no document: the pipeline is returned
unchanged. -/
theorem ingest_unstarted_fails_not_started
    (qc qe qs cw ew : Nat) (p : VectorIngestPipeline) (documents : List IngestItem) :
    ingest_batch_async (VectorIngestPipeline.init qc qe qs cw ew) documents
      = (VectorIngestPipeline.init qc qe qs cw ew, some PipelineError.notStarted)
    ∧ ingest_batch_async (stop_async p).1 documents
      = ((stop_async p).1, some PipelineError.notStarted) := by
  constructor
  · simp [ingest_batch_async, VectorIngestPipeline.init]
  · simp [ingest_batch_async, stop_async]

/-- C7: a successful start on a pipeline with no tracked worker tasks
tracks exactly chunker_workers chunking tasks, embedding_workers
embedding tasks and exactly one storage task, c+e+1 in total, and
processes nothing: all three queues are untouched. -/
theorem start_spawns_exact_worker_tasks (p : VectorIngestPipeline)
    (h : p.worker_tasks = []) :
    (start_async p).2 = none
    ∧ count_tasks WorkerKind.chunker (start_async p).1.worker_tasks = p.chunker_workers
    ∧ count_tasks WorkerKind.embedding (start_async p).1.worker_tasks = p.embedding_workers
    ∧ count_tasks WorkerKind.storage (start_async p).1.worker_tasks = 1
    ∧ (start_async p).1.worker_tasks.length
        = p.chunker_workers + p.embedding_workers + 1
    ∧ (start_async p).1.q_chunker = p.q_chunker
    ∧ (start_async p).1.q_embeddings = p.q_embeddings
    ∧ (start_async p).1.q_storage = p.q_storage := by
  have hsa : start_async p
      = ({ p with worker_tasks :=
            List.replicate p.chunker_workers WorkerKind.chunker
              ++ List.replicate p.embedding_workers WorkerKind.embedding
              ++ [WorkerKind.storage] }, none) := by
    simp [start_async, h]
  rw [hsa]
  refine ⟨rfl, ?_, ?_, ?_, ?_, rfl, rfl, rfl⟩
  · simp [count_tasks_append, count_tasks_replicate, count_tasks]
  · simp [count_tasks_append, count_tasks_replicate, count_tasks]
  · simp [count_tasks_append, count_tasks_replicate, count_tasks]
  · simp [List.length_append, List.length_replicate]
    omega

/-- Witness for C7 at a fresh pipeline with chunker_workers = 2 and
embedding_workers = 3. -/
theorem start_spawns_exact_worker_tasks_witness :
    (VectorIngestPipeline.init 8 8 8 2 3).worker_tasks = []
    ∧ ((start_async (VectorIngestPipeline.init 8 8 8 2 3)).2 = none
       ∧ count_tasks WorkerKind.chunker
           (start_async (VectorIngestPipeline.init 8 8 8 2 3)).1.worker_tasks
           = (VectorIngestPipeline.init 8 8 8 2 3).chunker_workers
       ∧ count_tasks WorkerKind.embedding
           (start_async (VectorIngestPipeline.init 8 8 8 2 3)).1.worker_tasks
           = (VectorIngestPipeline.init 8 8 8 2 3).embedding_workers
       ∧ count_tasks WorkerKind.storage
           (start_async (VectorIngestPipeline.init 8 8 8 2 3)).1.worker_tasks = 1
       ∧ (start_async (VectorIngestPipeline.init 8 8 8 2 3)).1.worker_tasks.length
           = (VectorIngestPipeline.init 8 8 8 2 3).chunker_workers
             + (VectorIngestPipeline.init 8 8 8 2 3).embedding_workers + 1
       ∧ (start_async (VectorIngestPipeline.init 8 8 8 2 3)).1.q_chunker
           = (VectorIngestPipeline.init 8 8 8 2 3).q_chunker
       ∧ (start_async (VectorIngestPipeline.init 8 8 8 2 3)).1.q_embeddings
           = (VectorIngestPipeline.init 8 8 8 2 3).q_embeddings
       ∧ (start_async (VectorIngestPipeline.init 8 8 8 2 3)).1.q_storage
           = (VectorIngestPipeline.init 8 8 8 2 3).q_storage) :=
  ⟨rfl, start_spawns_exact_worker_tasks (VectorIngestPipeline.init 8 8 8 2 3) rfl⟩

/-- C9: a successful ingest_batch on a started pipeline appends the
documents to the chunking-input queue in exactly the caller's order,
reports no error once all are accepted, invokes no collaborator and
touches nothing else: the result differs from the input pipeline only in
the chunking queue's items. -/
theorem ingest_batch_enqueues_in_order (p : VectorIngestPipeline)
    (docs : List OrthantDocument) (h : p.worker_tasks ≠ []) :
    ingest_batch_async p (docs.map IngestItem.doc)
      = ({ p with q_chunker :=
            { maxsize := p.q_chunker.maxsize, items := p.q_chunker.items ++ docs } },
         none) := by
  have hne := worker_tasks_isEmpty_false p h
  simp [ingest_batch_async, hne, enqueue_documents_docs]

/-- Witness for C9: one document ingested into the started default
pipeline lands at the tail of the chunking queue. -/
theorem ingest_batch_enqueues_in_order_witness :
    started_pipeline.worker_tasks ≠ []
    ∧ ingest_batch_async started_pipeline ([w_doc].map IngestItem.doc)
        = ({ started_pipeline with q_chunker :=
              { maxsize := started_pipeline.q_chunker.maxsize
                items := started_pipeline.q_chunker.items ++ [w_doc] } }, none) :=
  ⟨by decide, ingest_batch_enqueues_in_order started_pipeline [w_doc] (by decide)⟩

/-- C10: on a successful embedding call, the embedding worker enqueues
onto the storage-input queue exactly one VectorChunk whose document_id,
node_path, node_chunk_index and content equal those of the dequeued
Chunk and whose vector is exactly the value the embedding collaborator
returned. -/
theorem embedding_worker_builds_faithful_vector_chunk
    (next_doc : OrthantDocumentNodeChunk) (v : EmbeddingVector) :
    embedding_iteration next_doc (Except.ok v)
      = { output := [build_vector_chunk next_doc v], task_done := 1, escaped := none }
    ∧ (build_vector_chunk next_doc v).document_id = next_doc.document_id
    ∧ (build_vector_chunk next_doc v).node_path = next_doc.node_path
    ∧ (build_vector_chunk next_doc v).node_chunk_index = next_doc.node_chunk_index
    ∧ (build_vector_chunk next_doc v).content = next_doc.content
    ∧ (build_vector_chunk next_doc v).vector = v :=
  ⟨rfl, rfl, rfl, rfl, rfl, rfl⟩

theorem worker_run_chunker_processes_all
    (results : List (Except PyExc (List OrthantDocumentNodeChunk)))
    (h : ∀ r ∈ results, r ≠ Except.error PyExc.cancelled) :
    (worker_run chunker_iteration results).2 = results.length := by
  induction results with
  | nil => rfl
  | cons r rs ih =>
    have hr : r ≠ Except.error PyExc.cancelled := h r (List.mem_cons_self r rs)
    have hrs : ∀ x ∈ rs, x ≠ Except.error PyExc.cancelled :=
      fun x hx => h x (List.mem_cons_of_mem r hx)
    cases r with
    | ok chunks => simp [worker_run, chunker_iteration, ih hrs]; omega
    | error exc =>
      cases exc with
      | cancelled => exact absurd rfl hr
      | error m => simp [worker_run, chunker_iteration, ih hrs]; omega

/-- C2: a worker iteration whose processing raises a non-cancellation
exception discards the item silently (nothing is emitted downstream),
lets no exception escape, and marks the queue slot done exactly once; a
successful iteration also marks it done exactly once; and a worker
running over any sequence of dequeued items none of which is cancelled
performs one iteration per item (failures do not stop the loop). -/
theorem worker_iteration_swallows_noncancellation (m : String)
    (chunks : List OrthantDocumentNodeChunk) (next_chunk : OrthantDocumentNodeChunk)
    (v : EmbeddingVector) (next_vchunk : VectorDocumentNodeChunk)
    (results : List (Except PyExc (List OrthantDocumentNodeChunk)))
    (hres : ∀ r ∈ results, r ≠ Except.error PyExc.cancelled) :
    chunker_iteration (Except.error (PyExc.error m))
      = { output := [], task_done := 1, escaped := none }
    ∧ embedding_iteration next_chunk (Except.error (PyExc.error m))
      = { output := [], task_done := 1, escaped := none }
    ∧ storage_iteration next_vchunk (Except.error (PyExc.error m))
      = { output := [], task_done := 1, escaped := none }
    ∧ (chunker_iteration (Except.ok chunks)).task_done = 1
    ∧ (embedding_iteration next_chunk (Except.ok v)).task_done = 1
    ∧ (storage_iteration next_vchunk (Except.ok ())).task_done = 1
    ∧ (worker_run chunker_iteration results).2 = results.length :=
  ⟨rfl, rfl, rfl, rfl, rfl, rfl, worker_run_chunker_processes_all results hres⟩

/-- Witness for C2: an ordinary exception between two successes, no
cancellation in the sequence. -/
theorem worker_iteration_swallows_noncancellation_witness :
    (∀ r ∈ [Except.ok ([w_chunk] : List OrthantDocumentNodeChunk),
            Except.error (PyExc.error "boom"),
            Except.ok ([] : List OrthantDocumentNodeChunk)],
        r ≠ Except.error PyExc.cancelled)
    ∧ (chunker_iteration (Except.error (PyExc.error "boom"))
        = { output := [], task_done := 1, escaped := none }
      ∧ embedding_iteration w_chunk (Except.error (PyExc.error "boom"))
        = { output := [], task_done := 1, escaped := none }
      ∧ storage_iteration w_vchunk (Except.error (PyExc.error "boom"))
        = { output := [], task_done := 1, escaped := none }
      ∧ (chunker_iteration (Except.ok [w_chunk])).task_done = 1
      ∧ (embedding_iteration w_chunk (Except.ok [(1 : Rat)])).task_done = 1
      ∧ (storage_iteration w_vchunk (Except.ok ())).task_done = 1
      ∧ (worker_run chunker_iteration
            [Except.ok [w_chunk], Except.error (PyExc.error "boom"), Except.ok []]).2
          = [Except.ok ([w_chunk] : List OrthantDocumentNodeChunk),
             Except.error (PyExc.error "boom"), Except.ok []].length) :=
  ⟨by intro r hr; fin_cases hr <;> simp,
   worker_iteration_swallows_noncancellation "boom" [w_chunk] w_chunk [(1 : Rat)]
     w_vchunk [Except.ok [w_chunk], Except.error (PyExc.error "boom"), Except.ok []]
     (by intro r hr; fin_cases hr <;> simp)⟩

theorem list_isPrefixOf_self (l : List Char) : l.isPrefixOf l = true := by
  induction l with
  | nil => rfl
  | cons c t ih => simp [List.isPrefixOf, ih]

theorem string_toList_append (a b : String) :
    (a ++ b).toList = a.toList ++ b.toList := by
  cases a; cases b; rfl

theorem str_contains_suffix (a b : String) : str_contains (a ++ b) b = true := by
  unfold str_contains
  rw [List.any_eq_true]
  refine ⟨a.toList.length, ?_, ?_⟩
  · rw [List.mem_range, string_toList_append, List.length_append]
    omega
  · rw [string_toList_append, List.drop_left, list_isPrefixOf_self]

/-- C3 counterexample: on the started default pipeline, ingesting the
Python value 3 (an int, so not a well-formed Document, with repr "3")
raises the InvalidInput error, but its message renders only the type of
the offending value: the value itself ("3") appears nowhere in the
message, so the message does not name the offending value. -/
theorem ingest_invalid_message_omits_value :
    (ingest_batch_async started_pipeline [IngestItem.invalid "int" "3"]).2
      = some (PipelineError.invalidInput "Expected OrthantDocument, got int")
    ∧ str_contains "Expected OrthantDocument, got int" "3" = false := by
  constructor
  · decide
  · decide

/-- C3 (amended): whenever ingest_batch is called on a started pipeline
with an input sequence containing a value that is not a well-formed
Document, the call fails with an InvalidInput error whose message names
the type of the offending value (the value itself does not appear);
documents preceding the offending value have already been enqueued. -/
theorem ingest_invalid_fails_naming_type (p : VectorIngestPipeline)
    (docs : List OrthantDocument) (t r : String) (rest : List IngestItem)
    (h : p.worker_tasks ≠ []) :
    ingest_batch_async p (docs.map IngestItem.doc ++ IngestItem.invalid t r :: rest)
      = ({ p with q_chunker :=
            { maxsize := p.q_chunker.maxsize, items := p.q_chunker.items ++ docs } },
         some (PipelineError.invalidInput (invalid_input_message t)))
    ∧ str_contains (invalid_input_message t) t = true := by
  constructor
  · have hne := worker_tasks_isEmpty_false p h
    simp [ingest_batch_async, hne, enqueue_documents_first_invalid]
  · exact str_contains_suffix "Expected OrthantDocument, got " t

/-- Witness for the amended C3: one good document followed by the int 3
on the started default pipeline. -/
theorem ingest_invalid_fails_naming_type_witness :
    started_pipeline.worker_tasks ≠ []
    ∧ (ingest_batch_async started_pipeline
          ([w_doc].map IngestItem.doc ++ IngestItem.invalid "int" "3" :: [])
        = ({ started_pipeline with q_chunker :=
              { maxsize := started_pipeline.q_chunker.maxsize
                items := started_pipeline.q_chunker.items ++ [w_doc] } },
           some (PipelineError.invalidInput (invalid_input_message "int")))
       ∧ str_contains (invalid_input_message "int") "int" = true) :=
  ⟨by decide,
   ingest_invalid_fails_naming_type started_pipeline [w_doc] "int" "3" [] (by decide)⟩

/-- C4: the stop flag, once set by stop, is never cleared: it stays set
across a subsequent ingest_batch, a second stop and a subsequent start;
that start succeeds (the not-started guard inspects only the cleared
worker-task list) and tracks a non-empty worker set, and ingest_batch
after such a restart is accepted; yet the worker loop skeleton run with
the stop flag set exits at its first check, for any fuel, dequeuing and
processing nothing — so documents enqueued after the restart are never
processed. -/
theorem stop_flag_never_cleared_restart_is_dead (p : VectorIngestPipeline) :
    (stop_async p).1.stop_event = true
    ∧ (∀ documents, (ingest_batch_async (stop_async p).1 documents).1.stop_event = true)
    ∧ (stop_async (stop_async p).1).1.stop_event = true
    ∧ (start_async (stop_async p).1).2 = none
    ∧ (start_async (stop_async p).1).1.stop_event = true
    ∧ (start_async (stop_async p).1).1.worker_tasks ≠ []
    ∧ (∀ docs : List OrthantDocument,
        (ingest_batch_async (start_async (stop_async p).1).1
            (docs.map IngestItem.doc)).2 = none
        ∧ (ingest_batch_async (start_async (stop_async p).1).1
            (docs.map IngestItem.doc)).1.stop_event = true)
    ∧ (∀ (α : Type) (fuel : Nat) (queue : List α) (processed : Nat),
        worker_loop true fuel queue processed = (queue, processed)) := by
  have hrestart : start_async (stop_async p).1
      = ({ q_chunker := p.q_chunker, q_embeddings := p.q_embeddings
           q_storage := p.q_storage, stop_event := true
           worker_tasks := List.replicate p.chunker_workers WorkerKind.chunker
             ++ List.replicate p.embedding_workers WorkerKind.embedding
             ++ [WorkerKind.storage]
           chunker_workers := p.chunker_workers
           embedding_workers := p.embedding_workers }, none) := by
    simp [start_async, stop_async]
  have htasks_ne : (start_async (stop_async p).1).1.worker_tasks ≠ [] := by
    rw [hrestart]
    simp
  refine ⟨rfl, ?_, rfl, ?_, ?_, htasks_ne, ?_, ?_⟩
  · intro documents
    simp [ingest_batch_async, stop_async]
  · rw [hrestart]
  · rw [hrestart]
  · intro docs
    have hne := worker_tasks_isEmpty_false _ htasks_ne
    constructor
    · simp [ingest_batch_async, hne, enqueue_documents_docs]
    · simp [ingest_batch_async, hne, enqueue_documents_docs]
      rw [hrestart]
  · intro α fuel queue processed
    cases fuel with
    | zero => rfl
    | succ n => simp [worker_loop]

theorem pipe_step_preserves_id_count (c e K : Nat)
    (chunk_document : OrthantDocument → List OrthantDocumentNodeChunk)
    (encode_document_async : OrthantDocumentNodeChunk → EmbeddingVector)
    (Hlen : ∀ d, (chunk_document d).length = K)
    (Hid : ∀ d, ∀ ch ∈ chunk_document d, ch.document_id = d.document_id)
    (id : String) (s s' : PipeState)
    (hstep : PipeStep c e chunk_document encode_document_async s s') :
    id_count K id s' = id_count K id s := by
  cases hstep with
  | begin_chunk d rest hq hfree =>
    simp only [id_count]
    rw [hq]
    simp only [count_docs_append, count_docs]
    ring
  | end_chunk l1 l2 d hbusy =>
    have hcd := count_chunks_of_same_id d.document_id id (chunk_document d) (Hid d)
    rw [Hlen d] at hcd
    simp only [id_count]
    rw [hbusy]
    simp [count_docs_append, count_chunks_append, count_docs, hcd]
    by_cases hdid : d.document_id = id <;> simp [hdid] <;> ring
  | begin_embed ch rest hq hfree =>
    simp only [id_count]
    rw [hq]
    simp [count_chunks_append, count_chunks]
    ring
  | end_embed l1 l2 ch hbusy =>
    simp only [id_count]
    rw [hbusy]
    simp [count_chunks_append, count_vchunks_append, count_chunks, count_vchunks,
      build_vector_chunk]
    by_cases hdid : ch.document_id = id <;> simp [hdid] <;> ring
  | begin_store vc rest hq hfree =>
    simp only [id_count]
    rw [hq]
    simp [count_vchunks_append, count_vchunks]
    ring
  | end_store l1 l2 vc hbusy =>
    simp only [id_count]
    rw [hbusy]
    simp [count_vchunks_append, count_vchunks]
    ring

theorem pipe_step_preserves_total_count (c e K : Nat)
    (chunk_document : OrthantDocument → List OrthantDocumentNodeChunk)
    (encode_document_async : OrthantDocumentNodeChunk → EmbeddingVector)
    (Hlen : ∀ d, (chunk_document d).length = K)
    (s s' : PipeState)
    (hstep : PipeStep c e chunk_document encode_document_async s s') :
    total_count K s' = total_count K s := by
  cases hstep with
  | begin_chunk d rest hq hfree =>
    simp only [total_count]
    rw [hq]
    simp only [List.length_append, List.length_cons, List.length_nil]
    ring
  | end_chunk l1 l2 d hbusy =>
    simp only [total_count]
    rw [hbusy]
    simp [Hlen d]
    ring
  | begin_embed ch rest hq hfree =>
    simp only [total_count]
    rw [hq]
    simp
    ring
  | end_embed l1 l2 ch hbusy =>
    simp only [total_count]
    rw [hbusy]
    simp
    ring
  | begin_store vc rest hq hfree =>
    simp only [total_count]
    rw [hq]
    simp
    ring
  | end_store l1 l2 vc hbusy =>
    simp only [total_count]
    rw [hbusy]
    simp
    ring

theorem pipe_reach_preserves_id_count (c e K : Nat)
    (chunk_document : OrthantDocument → List OrthantDocumentNodeChunk)
    (encode_document_async : OrthantDocumentNodeChunk → EmbeddingVector)
    (Hlen : ∀ d, (chunk_document d).length = K)
    (Hid : ∀ d, ∀ ch ∈ chunk_document d, ch.document_id = d.document_id)
    (id : String) (s0 s : PipeState)
    (hreach : Relation.ReflTransGen (PipeStep c e chunk_document encode_document_async) s0 s) :
    id_count K id s = id_count K id s0 := by
  induction hreach with
  | refl => rfl
  | tail hab hbc ih =>
    rw [pipe_step_preserves_id_count c e K chunk_document encode_document_async
      Hlen Hid id _ _ hbc, ih]

theorem pipe_reach_preserves_total_count (c e K : Nat)
    (chunk_document : OrthantDocument → List OrthantDocumentNodeChunk)
    (encode_document_async : OrthantDocumentNodeChunk → EmbeddingVector)
    (Hlen : ∀ d, (chunk_document d).length = K)
    (s0 s : PipeState)
    (hreach : Relation.ReflTransGen (PipeStep c e chunk_document encode_document_async) s0 s) :
    total_count K s = total_count K s0 := by
  induction hreach with
  | refl => rfl
  | tail hab hbc ih =>
    rw [pipe_step_preserves_total_count c e K chunk_document encode_document_async
      Hlen _ _ hbc, ih]

theorem stuck_implies_quiescent (c e : Nat) (hc : 1 ≤ c) (he : 1 ≤ e)
    (chunk_document : OrthantDocument → List OrthantDocumentNodeChunk)
    (encode_document_async : OrthantDocumentNodeChunk → EmbeddingVector)
    (s : PipeState)
    (hstuck : Stuck c e chunk_document encode_document_async s) :
    s.q_chunker = [] ∧ s.chunk_inflight = [] ∧ s.q_embeddings = []
    ∧ s.embed_inflight = [] ∧ s.q_storage = [] ∧ s.store_inflight = [] := by
  have hci : s.chunk_inflight = [] := by
    cases hx : s.chunk_inflight with
    | nil => rfl
    | cons d t =>
      exact absurd (PipeStep.end_chunk s [] t d (by simpa using hx)) (hstuck _)
  have hqc : s.q_chunker = [] := by
    cases hx : s.q_chunker with
    | nil => rfl
    | cons d t =>
      have hfree : s.chunk_inflight.length < c := by
        rw [hci]
        simpa using hc
      exact absurd (PipeStep.begin_chunk s d t hx hfree) (hstuck _)
  have hei : s.embed_inflight = [] := by
    cases hx : s.embed_inflight with
    | nil => rfl
    | cons ch t =>
      exact absurd (PipeStep.end_embed s [] t ch (by simpa using hx)) (hstuck _)
  have hqe : s.q_embeddings = [] := by
    cases hx : s.q_embeddings with
    | nil => rfl
    | cons ch t =>
      have hfree : s.embed_inflight.length < e := by
        rw [hei]
        simpa using he
      exact absurd (PipeStep.begin_embed s ch t hx hfree) (hstuck _)
  have hsi : s.store_inflight = [] := by
    cases hx : s.store_inflight with
    | nil => rfl
    | cons vc t =>
      exact absurd (PipeStep.end_store s [] t vc (by simpa using hx)) (hstuck _)
  have hqs : s.q_storage = [] := by
    cases hx : s.q_storage with
    | nil => rfl
    | cons vc t =>
      have hfree : s.store_inflight.length < 1 := by
        rw [hsi]
        simp
      exact absurd (PipeStep.begin_store s vc t hx hfree) (hstuck _)
  exact ⟨hqc, hci, hqe, hei, hqs, hsi⟩

/-- C1: with c chunker workers and e embedding workers (any sizes at
least 1), a deterministic chunking collaborator producing exactly K
chunks per document (each carrying its document's id), and embedding and
storage collaborators that never raise, every maximal execution of the
started pipeline on a batch of documents with pairwise-distinct ids ends
with the storage collaborator having been invoked exactly N x K times,
each document id appearing in exactly K stored VectorChunks — regardless
of the configured worker-pool sizes. -/
theorem pipeline_eventually_stores_all_chunks
    (c e K : Nat) (hc : 1 ≤ c) (he : 1 ≤ e)
    (chunk_document : OrthantDocument → List OrthantDocumentNodeChunk)
    (encode_document_async : OrthantDocumentNodeChunk → EmbeddingVector)
    (Hlen : ∀ d, (chunk_document d).length = K)
    (Hid : ∀ d, ∀ ch ∈ chunk_document d, ch.document_id = d.document_id)
    (docs : List OrthantDocument)
    (Hdistinct : ∀ d ∈ docs, count_docs d.document_id docs = 1)
    (s : PipeState)
    (hreach : Relation.ReflTransGen (PipeStep c e chunk_document encode_document_async)
        (init_state docs) s)
    (hstuck : Stuck c e chunk_document encode_document_async s) :
    s.stored.length = docs.length * K
    ∧ ∀ d ∈ docs, count_vchunks d.document_id s.stored = K := by
  obtain ⟨hqc, hci, hqe, hei, hqs, hsi⟩ :=
    stuck_implies_quiescent c e hc he chunk_document encode_document_async s hstuck
  constructor
  · have htot := pipe_reach_preserves_total_count c e K chunk_document
      encode_document_async Hlen (init_state docs) s hreach
    simp only [total_count, init_state, hqc, hci, hqe, hei, hqs, hsi,
      List.length_nil, Nat.add_zero, Nat.zero_add, Nat.mul_zero] at htot
    rw [htot, Nat.mul_comm]
  · intro d hd
    have hidc := pipe_reach_preserves_id_count c e K chunk_document
      encode_document_async Hlen Hid d.document_id (init_state docs) s hreach
    simp only [id_count, init_state, hqc, hci, hqe, hei, hqs, hsi, count_docs,
      count_chunks, count_vchunks] at hidc
    rw [Hdistinct d hd] at hidc
    omega

theorem w_final_stuck : Stuck 1 1 w_chunker w_encoder w_final := by
  intro s' h
  cases h <;> simp_all [w_final]

theorem w_trace : Relation.ReflTransGen (PipeStep 1 1 w_chunker w_encoder)
    (init_state [w_doc]) w_final := by
  refine Relation.ReflTransGen.head
    (PipeStep.begin_chunk (init_state [w_doc]) w_doc [] rfl (by decide)) ?_
  refine Relation.ReflTransGen.head (PipeStep.end_chunk _ [] [] w_doc rfl) ?_
  refine Relation.ReflTransGen.head
    (PipeStep.begin_embed _ w_chunk [] rfl (by decide)) ?_
  refine Relation.ReflTransGen.head (PipeStep.end_embed _ [] [] w_chunk rfl) ?_
  refine Relation.ReflTransGen.head
    (PipeStep.begin_store _ w_vchunk [] rfl (by decide)) ?_
  refine Relation.ReflTransGen.head (PipeStep.end_store _ [] [] w_vchunk rfl) ?_
  exact Relation.ReflTransGen.refl

/-- Witness for C1: one document, one chunk per document, pool sizes
c = e = 1, run to its drained state along an explicit schedule. -/
theorem pipeline_eventually_stores_all_chunks_witness :
    (∀ d, (w_chunker d).length = 1)
    ∧ (w_final.stored.length = [w_doc].length * 1
       ∧ ∀ d ∈ [w_doc], count_vchunks d.document_id w_final.stored = 1) :=
  ⟨fun _ => rfl,
   pipeline_eventually_stores_all_chunks 1 1 1 (le_refl 1) (le_refl 1)
     w_chunker w_encoder (fun _ => rfl)
     (by
       intro d ch hch
       simp only [w_chunker, List.mem_singleton] at hch
       subst hch
       rfl)
     [w_doc] (by decide) w_final w_trace w_final_stuck⟩
